import Mathlib

/-!
Shallow embedding of the darts scoring core (`src/darts.js`): the `Throw`,
`Player` and `Game` classes and the pure helper `getDartValueFromID`.

JavaScript values that occur in this program are modelled by `JSVal`:
the program stores numbers, strings (the sentinel `"-"` of the seed `Throw`),
`undefined` (unset constructor arguments) and `NaN` (the result of a failed
`parseInt`).  Mutation is modelled by explicit state passing: each method
returns the updated object.  Dart identifiers fed to `addDart` are strings
(per the source, identifiers come from SVG element ids); the absent/empty
case of `getDartValueFromID` is modelled by an `Option String` argument.
-/

namespace Darts

/-- The JavaScript values reachable in this program: `undefined`, strings,
integer numbers and `NaN`.  (No fractional number is ever produced: all
arithmetic starts from integer literals and `parseInt` results.) -/
inductive JSVal where
  | undef : JSVal
  | str : String → JSVal
  | num : Int → JSVal
  | nan : JSVal
deriving DecidableEq, Repr

/-- JS `+` restricted to the operand shapes reachable in this program:
number plus number is numeric addition, and any operand that is not a
number (here only `NaN` is reachable) yields `NaN`. -/
def jsAdd : JSVal → JSVal → JSVal
  | .num a, .num b => .num (a + b)
  | _, _ => .nan

/-- JS `-` on the reachable operand shapes (numbers and `NaN`). -/
def jsSub : JSVal → JSVal → JSVal
  | .num a, .num b => .num (a - b)
  | _, _ => .nan

/-- JS `*` on the reachable operand shapes (numbers and `NaN`). -/
def jsMul : JSVal → JSVal → JSVal
  | .num a, .num b => .num (a * b)
  | _, _ => .nan

/-- Unary minus, used for the sign handling of `parseInt`. -/
def jsNeg : JSVal → JSVal
  | .num a => .num (-a)
  | _ => .nan

/-- Decimal digit test (codepoints 48 to 57), used by the `parseInt` model. -/
def isDigitChar (c : Char) : Bool :=
  decide (48 ≤ c.toNat ∧ c.toNat ≤ 57)

/-- Whitespace skipped by JS `parseInt` (the forms that can occur in a
one-line identifier). -/
def isWhitespaceChar (c : Char) : Bool :=
  c = ' ' || c = '\t' || c = '\n' || c = '\r' || c = '\x0b' || c = '\x0c'

/-- Hexadecimal digit test for the `0x` branch of `parseInt`. -/
def isHexDigitChar (c : Char) : Bool :=
  decide (48 ≤ c.toNat ∧ c.toNat ≤ 57) ||
  decide (97 ≤ c.toNat ∧ c.toNat ≤ 102) ||
  decide (65 ≤ c.toNat ∧ c.toNat ≤ 70)

/-- Value of a hexadecimal digit. -/
def hexVal (c : Char) : Nat :=
  if c.toNat ≤ 57 then c.toNat - 48
  else if 97 ≤ c.toNat then c.toNat - 87
  else c.toNat - 55

/-- Accumulate the longest leading run of decimal digits
(JS `parseInt` stops at the first non-digit). -/
def digitsToNat : List Char → Nat → Nat
  | [], acc => acc
  | c :: cs, acc =>
      if isDigitChar c then digitsToNat cs (10 * acc + (c.toNat - 48)) else acc

/-- Accumulate the longest leading run of hexadecimal digits. -/
def hexDigitsToNat : List Char → Nat → Nat
  | [], acc => acc
  | c :: cs, acc =>
      if isHexDigitChar c then hexDigitsToNat cs (16 * acc + hexVal c) else acc

/-- Radix-10 parse of a digit run; `NaN` when no leading digit exists. -/
def parseDecimal : List Char → JSVal
  | [] => .nan
  | c :: cs => if isDigitChar c then .num (digitsToNat cs (c.toNat - 48)) else .nan

/-- Radix-16 parse after a `0x` prefix; `NaN` when no hex digit follows. -/
def parseHexTail : List Char → JSVal
  | [] => .nan
  | c :: cs => if isHexDigitChar c then .num (hexDigitsToNat cs (hexVal c)) else .nan

/-- Unsigned part of `parseInt`: a `0x`/`0X` prefix selects radix 16,
otherwise the string is read as decimal. -/
def parseUnsigned (cs : List Char) : JSVal :=
  match cs with
  | c0 :: c1 :: rest =>
      if c0 = '0' ∧ (c1 = 'x' ∨ c1 = 'X') then parseHexTail rest
      else parseDecimal cs
  | _ => parseDecimal cs

/-- `parseInt` after whitespace removal: an optional single sign,
then the unsigned parse. -/
def parseIntCore : List Char → JSVal
  | [] => .nan
  | c :: cs =>
      if c = '-' then jsNeg (parseUnsigned cs)
      else if c = '+' then parseUnsigned cs
      else parseUnsigned (c :: cs)

/-- Model of JS `parseInt(s)` (radix argument omitted, as in the source):
skip leading whitespace, read an optional sign, then parse the longest
numeric prefix; `NaN` when no digit is found. -/
def parseIntList (cs : List Char) : JSVal :=
  parseIntCore (cs.dropWhile isWhitespaceChar)

/-- `Throw.getDartValueFromID` on the character list of a non-absent id:
`""` is falsy and yields 0; `"Bull"` and `"Outer"` are special-cased; any
other id takes its multiplier from the first character (`s` 1, `d` 2,
`t` 3, default 1) times `parseInt` of the rest (`id.substr(1)`). -/
def getDartValueFromList : List Char → JSVal
  | [] => .num 0
  | c :: rest =>
      if c :: rest = "Bull".data then .num 50
      else if c :: rest = "Outer".data then .num 25
      else
        jsMul
          (.num (if c = 's' then 1 else if c = 'd' then 2 else if c = 't' then 3 else 1))
          (parseIntList rest)

/-- `Throw.getDartValueFromID(id)`; `none` models an absent (`undefined` or
`null`) identifier, which is falsy and yields 0 like the empty string. -/
def getDartValueFromID : Option String → JSVal
  | none => .num 0
  | some s => getDartValueFromList s.data

/-- The `darts` record of a `Throw`.  The slots `one`, `two`, `three` hold
the identifier strings (`none` models `undefined`); `extra` models the
property created under the computed key `""` when `addDart` runs on an
already-full `Throw` (all three slot tests fail, leaving `dart = ""`). -/
structure Darts' where
  one : Option String
  two : Option String
  three : Option String
  extra : Option String
deriving DecidableEq, Repr

/-- The `Throw` class: id (a number, or the string `"-"` for the seed row),
the three dart slots, the derived `total` and `currentScore`. -/
structure Throw where
  id : JSVal
  darts : Darts'
  total : JSVal
  currentScore : JSVal
deriving DecidableEq, Repr

/-- The value computed by `calculateTotal`:
`[one, two, three].map(getDartValueFromID).reduce((a, b) => a + b, 0)`. -/
def dartSum (t : Throw) : JSVal :=
  jsAdd (jsAdd (jsAdd (.num 0) (getDartValueFromID t.darts.one))
      (getDartValueFromID t.darts.two))
    (getDartValueFromID t.darts.three)

/-- `Throw.calculateTotal()`: assign the slot sum to `this.total`. -/
def Throw.calculateTotal (t : Throw) : Throw :=
  { t with total := dartSum t }

/-- `Throw.calculateCurrentScore(prevCurrentScore, id)`: assign
`prevCurrentScore - getDartValueFromID(id)` to `this.currentScore` and also
return it (the pair is the updated object together with the return value). -/
def Throw.calculateCurrentScore (t : Throw) (prevCurrentScore : JSVal) (id : String) :
    Throw × JSVal :=
  let s := jsSub prevCurrentScore (getDartValueFromID (some id))
  ({ t with currentScore := s }, s)

/-- `Throw.isThrowComplete()`: `this.darts.three !== undefined`. -/
def Throw.isThrowComplete (t : Throw) : Bool :=
  t.darts.three.isSome

/-- The slot name computed by the cascade at the top of `Throw.addDart`. -/
inductive SlotName where
  | one : SlotName
  | two : SlotName
  | three : SlotName
  | extra : SlotName
deriving DecidableEq, Repr

/-- `let dart = ""; if (three == undefined) dart = "three"; if (two ==
undefined) dart = "two"; if (one == undefined) dart = "one";` — the last
assignment that fires wins; when every slot is filled the key stays `""`
(modelled by `SlotName.extra`). -/
def pickSlot (d : Darts') : SlotName :=
  let s := SlotName.extra
  let s := if d.three = none then SlotName.three else s
  let s := if d.two = none then SlotName.two else s
  if d.one = none then SlotName.one else s

/-- `this.darts[dart] = id` for the computed slot name. -/
def setSlot (d : Darts') (s : SlotName) (id : String) : Darts' :=
  match s with
  | .one => { d with one := some id }
  | .two => { d with two := some id }
  | .three => { d with three := some id }
  | .extra => { d with extra := some id }

/-- `Throw.addDart(id, currentScore)`: fill the computed slot, recompute the
total, then recompute the current score. -/
def Throw.addDart (t : Throw) (id : String) (currentScore : JSVal) : Throw :=
  let t1 := { t with darts := setSlot t.darts (pickSlot t.darts) id }
  let t2 := t1.calculateTotal
  (t2.calculateCurrentScore currentScore id).1

/-- The seed placeholder row `new Throw("-", "-", "-", "-", "-", 501)`
pushed by the `Player` constructor. -/
def seedThrow : Throw :=
  { id := .str "-"
    darts := { one := some "-", two := some "-", three := some "-", extra := none }
    total := .str "-"
    currentScore := .num 501 }

/-- `new Throw(n)` as called from `Player.addDart`: only the id argument is
supplied, every other constructor argument is `undefined`. -/
def newThrow (n : Nat) : Throw :=
  { id := .num n
    darts := { one := none, two := none, three := none, extra := none }
    total := .undef
    currentScore := .undef }

/-- Default used to totalise `throws[throws.length - 1]`; a `Player` always
holds at least the seed `Throw`, so this value is never read on states
produced by the constructors and operations. -/
def dfltThrow : Throw :=
  { id := .undef
    darts := { one := none, two := none, three := none, extra := none }
    total := .undef
    currentScore := .undef }

/-- The `Player` class: id, running score and ordered `Throw` history. -/
structure Player where
  id : Int
  currentScore : JSVal
  throws : List Throw
deriving DecidableEq, Repr

/-- `new Player(i)`: score 501 and the seed placeholder `Throw`. -/
def Player.new (i : Int) : Player :=
  { id := i, currentScore := .num 501, throws := [seedThrow] }

/-- `get currentThrow()`: the last element of `this.throws`. -/
def Player.currentThrow (p : Player) : Throw :=
  p.throws.getLastD dfltThrow

/-- In-place mutation of the last element of the `throws` array. -/
def updateLast (f : Throw → Throw) : List Throw → List Throw
  | [] => []
  | [t] => [f t]
  | t :: u :: ts => t :: updateLast f (u :: ts)

/-- `Player.addDart(id)`: push a fresh `Throw` (id = current length) when
the current one is complete, then call `addDart` on the current `Throw`
with the player's current score. -/
def Player.addDart (p : Player) (id : String) : Player :=
  let p1 := if p.currentThrow.isThrowComplete
      then { p with throws := p.throws ++ [newThrow p.throws.length] }
      else p
  { p1 with throws := updateLast (fun t => t.addDart id p1.currentScore) p1.throws }

/-- The `Game` class: the two players and the current-player reference,
modelled by which of the two fields `currentPlayer` aliases. -/
structure Game where
  playerOne : Player
  playerTwo : Player
  currentIsOne : Bool
deriving DecidableEq, Repr

/-- `new Game()`: players one and two, player one to start. -/
def Game.new : Game :=
  { playerOne := Player.new 1, playerTwo := Player.new 2, currentIsOne := true }

/-- Dereference `this.currentPlayer`. -/
def Game.currentPlayer (g : Game) : Player :=
  if g.currentIsOne then g.playerOne else g.playerTwo

/-- Write back a mutation performed through the `currentPlayer` alias. -/
def Game.setCurrentPlayer (g : Game) (p : Player) : Game :=
  if g.currentIsOne then { g with playerOne := p } else { g with playerTwo := p }

/-- `Game.switchPlayers()`:
`this.currentPlayer = this.player[this.currentPlayer.id === 1 ? "two" : "one"]`. -/
def Game.switchPlayers (g : Game) : Game :=
  if g.currentPlayer.id = 1 then { g with currentIsOne := false }
  else { g with currentIsOne := true }

/-- Steps 1 and 2 of `Game.addDart` as they act on the current player:
`currentPlayer.addDart(id)`, then `currentPlayer.currentScore =
currentPlayer.currentThrow.calculateCurrentScore(currentPlayer.currentScore, id)`
(which also re-assigns `currentScore` on that `Throw`). -/
def playerGameStep (p : Player) (id : String) : Player :=
  let p1 := p.addDart id
  let res := p1.currentThrow.calculateCurrentScore p1.currentScore id
  { p1 with currentScore := res.2, throws := updateLast (fun _ => res.1) p1.throws }

/-- `Game.addDart(id)`: forward to the current player, re-derive its score
from the `Throw`, and switch players when the `Throw` is complete. -/
def Game.addDart (g : Game) (id : String) : Game :=
  let p2 := playerGameStep g.currentPlayer id
  let g1 := g.setCurrentPlayer p2
  if p2.currentThrow.isThrowComplete then g1.switchPlayers else g1

/-- Modelled from the spec (design note §9, consolidation of the redundant
score computation): `Throw.addDart` has already stored the updated score on
the `Throw`, so this variant of `Game.addDart` simply reads
`currentThrow.currentScore` instead of recomputing it.  Used only to compare
with `Game.addDart`. -/
def Game.addDartNoDup (g : Game) (id : String) : Game :=
  let p1 := g.currentPlayer.addDart id
  let p2 := { p1 with currentScore := p1.currentThrow.currentScore }
  let g1 := g.setCurrentPlayer p2
  if p2.currentThrow.isThrowComplete then g1.switchPlayers else g1

/-- Game states reachable from a fresh `Game` through the public entry
point `Game.addDart`. -/
inductive Reach : Game → Prop where
  | init : Reach Game.new
  | step : ∀ {g : Game} (id : String), Reach g → Reach (Game.addDart g id)

/-- The ring multiplier table of the spec: single 1, double 2, treble 3,
any other leading character 1. -/
def ringMod (c : Char) : Int :=
  if c = 's' then 1 else if c = 'd' then 2 else if c = 't' then 3 else 1

/-- Standard decimal reading of a digit string (spec side: "the parsed
number" of a `<ring><number>` code). -/
def decimalValue (ds : List Char) : Nat :=
  ds.foldl (fun a c => 10 * a + (c.toNat - 48)) 0

/-- The integer value of an identifier whose parse did not fail. -/
def valInt (id : String) : Int :=
  match getDartValueFromID (some id) with
  | .num n => n
  | _ => 0

/-- Sum of the values of a list of identifiers. -/
def sumVals (l : List String) : Int :=
  (l.map valInt).sum

/-- Fold a list of identifiers through `Game.addDart`. -/
def runGame (g : Game) (ids : List String) : Game :=
  ids.foldl Game.addDart g

/-- The identifiers of `ids` that are routed to player one (`b = true`) or
player two (`b = false`) when the whole list is fed to `Game.addDart`
starting from `g`. -/
def dartsReceived (b : Bool) : Game → List String → List String
  | _, [] => []
  | g, id :: rest =>
      if g.currentIsOne = b then id :: dartsReceived b (Game.addDart g id) rest
      else dartsReceived b (Game.addDart g id) rest

/-- A sample reachable state (one dart into a fresh game), used to
instantiate reachability-quantified theorems on a concrete input. -/
def gSample : Game := Game.addDart Game.new "t20"

/-- A sample fully-filled `Throw` whose `total` agrees with its slot sum
(`s1`, `s2`, `s3` are worth 1, 2 and 3), used to instantiate theorems about
over-full throws on a concrete input. -/
def tFull : Throw :=
  { id := JSVal.num 1
    darts := { one := some "s1", two := some "s2", three := some "s3", extra := none }
    total := JSVal.num 6
    currentScore := JSVal.num 100 }

end Darts

namespace Darts

/-! ### Helper lemmas about the list of throws -/

theorem updateLast_concat (f : Throw → Throw) (l : List Throw) (x : Throw) :
    updateLast f (l ++ [x]) = l ++ [f x] := by
  induction l with
  | nil => rfl
  | cons a l ih =>
    cases l with
    | nil => rfl
    | cons b l2 => simpa [updateLast] using ih

theorem exists_concat_of_ne_nil {l : List Throw} (h : l ≠ []) :
    ∃ l2 x, l = l2 ++ [x] := by
  rcases List.eq_nil_or_concat l with h0 | ⟨l2, x, hx⟩
  · exact absurd h0 h
  · exact ⟨l2, x, by simpa [List.concat_eq_append] using hx⟩

theorem currentThrow_of_concat {p : Player} {l : List Throw} {x : Throw}
    (h : p.throws = l ++ [x]) : p.currentThrow = x := by
  rw [Player.currentThrow, h, List.getLastD_concat]

theorem mem_drop_one_concat {l : List Throw} {x y : Throw}
    (hy : y ∈ (l ++ [x]).drop 1) : y ∈ l.drop 1 ∨ y = x := by
  cases l with
  | nil => simp at hy
  | cons a l2 =>
    simp only [List.cons_append, List.drop_succ_cons, List.drop_zero] at hy ⊢
    simpa using List.mem_append.mp hy

theorem mem_drop_one_mono {l : List Throw} {x y : Throw}
    (hy : y ∈ l.drop 1) : y ∈ (l ++ [x]).drop 1 := by
  cases l with
  | nil => simp at hy
  | cons a l2 =>
    simp only [List.cons_append, List.drop_succ_cons, List.drop_zero] at hy ⊢
    exact List.mem_append.mpr (Or.inl hy)

/-! ### Field lemmas for `Throw.addDart` -/

theorem Throw.addDart_sets_currentScore (t : Throw) (id : String) (s : JSVal) :
    (t.addDart id s).currentScore = jsSub s (getDartValueFromID (some id)) := rfl

theorem Throw.addDart_keeps_throw_id (t : Throw) (id : String) (s : JSVal) :
    (t.addDart id s).id = t.id := rfl

theorem Throw.addDart_darts (t : Throw) (id : String) (s : JSVal) :
    (t.addDart id s).darts = setSlot t.darts (pickSlot t.darts) id := rfl

theorem Throw.addDart_total (t : Throw) (id : String) (s : JSVal) :
    (t.addDart id s).total = dartSum (t.addDart id s) := rfl

/-! ### Normal forms for `Player.addDart` -/

theorem Player.addDart_keeps_currentScore (p : Player) (id : String) :
    (p.addDart id).currentScore = p.currentScore := by
  unfold Player.addDart
  split <;> rfl

theorem Player.addDart_keeps_player_id (p : Player) (id : String) :
    (p.addDart id).id = p.id := by
  unfold Player.addDart
  split <;> rfl

theorem Player.addDart_of_complete (p : Player) (id : String)
    (h : p.currentThrow.isThrowComplete = true) :
    p.addDart id =
      { p with throws :=
          p.throws ++ [(newThrow p.throws.length).addDart id p.currentScore] } := by
  simp only [Player.addDart, h, if_true, updateLast_concat]

theorem Player.addDart_of_incomplete (p : Player) (id : String) {l : List Throw} {t : Throw}
    (hl : p.throws = l ++ [t]) (h : p.currentThrow.isThrowComplete = false) :
    p.addDart id = { p with throws := l ++ [t.addDart id p.currentScore] } := by
  simp only [Player.addDart, h, Bool.false_eq_true, if_false, hl, updateLast_concat]

theorem ne_nil_of_complete {p : Player}
    (h : p.currentThrow.isThrowComplete = true) : p.throws ≠ [] := by
  intro h0
  rw [Player.currentThrow, h0] at h
  simp [List.getLastD, dfltThrow, Throw.isThrowComplete] at h

end Darts

namespace Darts

/-! ### Normal forms for the score recomputation of `Game.addDart` -/

theorem calculateCurrentScore_eta (t : Throw) (prev : JSVal) (id : String)
    (h : t.currentScore = jsSub prev (getDartValueFromID (some id))) :
    t.calculateCurrentScore prev id = (t, t.currentScore) := by
  rw [Throw.calculateCurrentScore, ← h]

theorem playerGameStep_currentScore (p : Player) (id : String) :
    (playerGameStep p id).currentScore
      = jsSub p.currentScore (getDartValueFromID (some id)) := by
  simp [playerGameStep, Throw.calculateCurrentScore, Player.addDart_keeps_currentScore]

theorem playerGameStep_id_field (p : Player) (id : String) :
    (playerGameStep p id).id = p.id := by
  simp [playerGameStep, Player.addDart_keeps_player_id]

theorem playerGameStep_eq (p : Player) (id : String) (h : p.throws ≠ []) :
    playerGameStep p id =
      { p.addDart id with
        currentScore := jsSub p.currentScore (getDartValueFromID (some id)) } := by
  have hsplit : ∃ L A, (p.addDart id).throws = L ++ [A] ∧
      A.currentScore = jsSub p.currentScore (getDartValueFromID (some id)) := by
    by_cases hc : p.currentThrow.isThrowComplete
    · exact ⟨p.throws, (newThrow p.throws.length).addDart id p.currentScore,
        by rw [Player.addDart_of_complete p id hc], Throw.addDart_sets_currentScore ..⟩
    · obtain ⟨l, t, hlt⟩ := exists_concat_of_ne_nil h
      exact ⟨l, t.addDart id p.currentScore,
        by rw [Player.addDart_of_incomplete p id hlt (Bool.not_eq_true _ ▸ hc)],
        Throw.addDart_sets_currentScore ..⟩
  obtain ⟨L, A, hLA, hA⟩ := hsplit
  have hct : (p.addDart id).currentThrow = A := currentThrow_of_concat hLA
  have hcs : (p.addDart id).currentScore = p.currentScore := Player.addDart_keeps_currentScore ..
  simp only [playerGameStep, hct, hcs, calculateCurrentScore_eta A p.currentScore id hA,
    hLA, updateLast_concat, hA]

theorem playerGameStep_throws_nil (p : Player) (id : String) (h : p.throws = []) :
    (playerGameStep p id).throws = [] := by
  have hcur : p.currentThrow = dfltThrow := by rw [Player.currentThrow, h]; rfl
  simp [playerGameStep, Player.addDart, hcur, dfltThrow, Throw.isThrowComplete, h, updateLast]

/-! ### Frame lemmas for `Game.addDart` -/

theorem setCurrentPlayer_currentIsOne (g : Game) (p : Player) :
    (g.setCurrentPlayer p).currentIsOne = g.currentIsOne := by
  unfold Game.setCurrentPlayer
  split <;> rfl

theorem setCurrentPlayer_currentPlayer (g : Game) (p : Player) :
    (g.setCurrentPlayer p).currentPlayer = p := by
  unfold Game.setCurrentPlayer Game.currentPlayer
  by_cases hb : g.currentIsOne <;> simp [hb]

theorem switchPlayers_playerOne (g : Game) :
    g.switchPlayers.playerOne = g.playerOne := by
  unfold Game.switchPlayers
  split <;> rfl

theorem switchPlayers_playerTwo (g : Game) :
    g.switchPlayers.playerTwo = g.playerTwo := by
  unfold Game.switchPlayers
  split <;> rfl

theorem switchPlayers_currentIsOne (g : Game) :
    g.switchPlayers.currentIsOne = (if g.currentPlayer.id = 1 then false else true) := by
  unfold Game.switchPlayers
  split <;> simp_all

theorem Game.addDart_playerOne (g : Game) (id : String) :
    (g.addDart id).playerOne =
      if g.currentIsOne then playerGameStep g.playerOne id else g.playerOne := by
  by_cases hb : g.currentIsOne <;>
    simp only [Game.addDart, Game.currentPlayer, Game.setCurrentPlayer, hb, if_true,
      Bool.false_eq_true, if_false] <;>
    split <;> simp [switchPlayers_playerOne]

theorem Game.addDart_playerTwo (g : Game) (id : String) :
    (g.addDart id).playerTwo =
      if g.currentIsOne then g.playerTwo else playerGameStep g.playerTwo id := by
  by_cases hb : g.currentIsOne <;>
    simp only [Game.addDart, Game.currentPlayer, Game.setCurrentPlayer, hb, if_true,
      Bool.false_eq_true, if_false] <;>
    split <;> simp [switchPlayers_playerTwo]

/-! ### Shape of the dart slots along a fresh `Throw` -/

theorem addDart_newThrow_darts (n : Nat) (id : String) (s : JSVal) :
    ((newThrow n).addDart id s).darts =
      { one := some id, two := none, three := none, extra := none } := rfl

theorem addDart_darts_two {t : Throw} {a : String} {e : Option String}
    (h : t.darts = { one := some a, two := none, three := none, extra := e })
    (id : String) (s : JSVal) :
    (t.addDart id s).darts =
      { one := some a, two := some id, three := none, extra := e } := by
  rw [Throw.addDart_darts, h]; rfl

theorem addDart_darts_three {t : Throw} {a b : String} {e : Option String}
    (h : t.darts = { one := some a, two := some b, three := none, extra := e })
    (id : String) (s : JSVal) :
    (t.addDart id s).darts =
      { one := some a, two := some b, three := some id, extra := e } := by
  rw [Throw.addDart_darts, h]; rfl

theorem isThrowComplete_of_darts {t : Throw} {o1 o2 : Option String} {x : String}
    {e : Option String}
    (h : t.darts = { one := o1, two := o2, three := some x, extra := e }) :
    t.isThrowComplete = true := by
  rw [Throw.isThrowComplete, h]; rfl

theorem not_isThrowComplete_of_darts {t : Throw} {o1 o2 : Option String}
    {e : Option String}
    (h : t.darts = { one := o1, two := o2, three := none, extra := e }) :
    t.isThrowComplete = false := by
  rw [Throw.isThrowComplete, h]; rfl

end Darts

namespace Darts

/-! ### Invariant machinery: total is recomputed from the slots -/

theorem step_preserves_total_inv (p : Player) (id : String)
    (h : ∀ t ∈ p.throws.drop 1, t.total = dartSum t) :
    ∀ t ∈ (playerGameStep p id).throws.drop 1, t.total = dartSum t := by
  by_cases hnil : p.throws = []
  · rw [playerGameStep_throws_nil p id hnil]
    intro t ht
    simp at ht
  · rw [playerGameStep_eq p id hnil]
    intro t ht
    by_cases hc : p.currentThrow.isThrowComplete
    · rw [Player.addDart_of_complete p id hc] at ht
      rcases mem_drop_one_concat ht with hmem | rfl
      · exact h t hmem
      · exact Throw.addDart_total ..
    · obtain ⟨l, x, hlx⟩ := exists_concat_of_ne_nil hnil
      rw [Player.addDart_of_incomplete p id hlx (Bool.not_eq_true _ ▸ hc)] at ht
      rcases mem_drop_one_concat ht with hmem | rfl
      · exact h t (hlx ▸ mem_drop_one_mono hmem)
      · exact Throw.addDart_total ..

/-! ### JS parseInt on all-digit strings -/

theorem digitsToNat_eq_foldl (ds : List Char) (h : ∀ d ∈ ds, isDigitChar d = true) :
    ∀ acc, digitsToNat ds acc = ds.foldl (fun a c => 10 * a + (c.toNat - 48)) acc := by
  induction ds with
  | nil => intro acc; rfl
  | cons d ds ih =>
    intro acc
    have hd : isDigitChar d = true := h d (List.mem_cons_self d ds)
    rw [digitsToNat, if_pos hd, List.foldl_cons,
      ih (fun x hx => h x (List.mem_cons_of_mem d hx))]

theorem not_ws_of_digit (c : Char) (h : isDigitChar c = true) :
    isWhitespaceChar c = false := by
  cases h2 : isWhitespaceChar c
  · rfl
  · exfalso
    simp only [isWhitespaceChar, Bool.or_eq_true, decide_eq_true_eq] at h2
    rcases h2 with ((((rfl | rfl) | rfl) | rfl) | rfl) | rfl <;> simp [isDigitChar] at h

theorem parseIntList_all_digits (ds : List Char) (h1 : ds ≠ [])
    (h2 : ∀ d ∈ ds, isDigitChar d = true) :
    parseIntList ds = .num (decimalValue ds) := by
  obtain ⟨d, rest, rfl⟩ : ∃ d rest, ds = d :: rest := by
    cases ds with
    | nil => exact absurd rfl h1
    | cons d rest => exact ⟨d, rest, rfl⟩
  have hd : isDigitChar d = true := h2 d (List.mem_cons_self d rest)
  have hw : (d :: rest).dropWhile isWhitespaceChar = d :: rest := by
    rw [List.dropWhile_cons, not_ws_of_digit d hd]
    simp
  have hm : ¬d = '-' := by
    intro e; rw [e] at hd; exact absurd hd (by decide)
  have hp : ¬d = '+' := by
    intro e; rw [e] at hd; exact absurd hd (by decide)
  have hcore : parseIntCore (d :: rest) =
      if d = '-' then jsNeg (parseUnsigned rest)
      else if d = '+' then parseUnsigned rest
      else parseUnsigned (d :: rest) := rfl
  rw [parseIntList, hw, hcore, if_neg hm, if_neg hp]
  cases rest with
  | nil =>
    have e1 : parseUnsigned [d] = parseDecimal [d] := rfl
    rw [e1, parseDecimal, if_pos hd]
    simp [digitsToNat, decimalValue]
  | cons r1 rest2 =>
    have hr1 : isDigitChar r1 = true := h2 r1 (by simp)
    have hx : ¬(d = '0' ∧ (r1 = 'x' ∨ r1 = 'X')) := by
      rintro ⟨-, hx | hx⟩ <;> (rw [hx] at hr1; exact absurd hr1 (by decide))
    have e2 : parseUnsigned (d :: r1 :: rest2) =
        if d = '0' ∧ (r1 = 'x' ∨ r1 = 'X') then parseHexTail rest2
        else parseDecimal (d :: r1 :: rest2) := rfl
    rw [e2, if_neg hx, parseDecimal, if_pos hd,
      digitsToNat_eq_foldl (r1 :: rest2) (fun x hx2 => h2 x (List.mem_cons_of_mem d hx2))]
    simp [decimalValue]

end Darts

namespace Darts

/-! ### Score and frame behaviour of a single `Game.addDart` step -/

theorem addDart_playerOne_score_of_one {g : Game} (hb : g.currentIsOne = true)
    (id : String) :
    (g.addDart id).playerOne.currentScore
      = jsSub g.playerOne.currentScore (getDartValueFromID (some id)) := by
  rw [Game.addDart_playerOne, if_pos hb, playerGameStep_currentScore]

theorem addDart_playerTwo_frame_of_one {g : Game} (hb : g.currentIsOne = true)
    (id : String) : (g.addDart id).playerTwo = g.playerTwo := by
  rw [Game.addDart_playerTwo, if_pos hb]

theorem addDart_playerTwo_score_of_two {g : Game} (hb : g.currentIsOne = false)
    (id : String) :
    (g.addDart id).playerTwo.currentScore
      = jsSub g.playerTwo.currentScore (getDartValueFromID (some id)) := by
  rw [Game.addDart_playerTwo, if_neg (by simp [hb]), playerGameStep_currentScore]

theorem addDart_playerOne_frame_of_two {g : Game} (hb : g.currentIsOne = false)
    (id : String) : (g.addDart id).playerOne = g.playerOne := by
  rw [Game.addDart_playerOne, if_neg (by simp [hb])]

theorem sumVals_cons (id : String) (l : List String) :
    sumVals (id :: l) = valInt id + sumVals l := by
  simp [sumVals]

theorem runGame_cons (g : Game) (id : String) (rest : List String) :
    runGame g (id :: rest) = runGame (g.addDart id) rest := rfl

theorem run_scores (ids : List String) :
    ∀ (g : Game) (s1 s2 : Int),
      g.playerOne.currentScore = .num s1 → g.playerTwo.currentScore = .num s2 →
      (∀ id ∈ ids, ∃ n : Int, getDartValueFromID (some id) = .num n) →
      (runGame g ids).playerOne.currentScore
          = .num (s1 - sumVals (dartsReceived true g ids)) ∧
      (runGame g ids).playerTwo.currentScore
          = .num (s2 - sumVals (dartsReceived false g ids)) := by
  induction ids with
  | nil =>
    intro g s1 s2 h1 h2 _
    simp [runGame, dartsReceived, sumVals, h1, h2]
  | cons id rest ih =>
    intro g s1 s2 h1 h2 hall
    obtain ⟨n, hn⟩ := hall id (List.mem_cons_self id rest)
    have hrest : ∀ x ∈ rest, ∃ m : Int, getDartValueFromID (some x) = .num m :=
      fun x hx => hall x (List.mem_cons_of_mem id hx)
    have hv : valInt id = n := by rw [valInt, hn]
    rw [runGame_cons]
    cases hb : g.currentIsOne with
    | true =>
      have e1 : (g.addDart id).playerOne.currentScore = .num (s1 - n) := by
        rw [addDart_playerOne_score_of_one hb, h1, hn]; rfl
      have e2 : (g.addDart id).playerTwo.currentScore = .num s2 := by
        rw [addDart_playerTwo_frame_of_one hb, h2]
      obtain ⟨r1, r2⟩ := ih (g.addDart id) (s1 - n) s2 e1 e2 hrest
      constructor
      · rw [r1]
        have hd : dartsReceived true g (id :: rest)
            = id :: dartsReceived true (g.addDart id) rest := by
          simp [dartsReceived, hb]
        rw [hd, sumVals_cons, hv]
        congr 1
        omega
      · rw [r2]
        have hd : dartsReceived false g (id :: rest)
            = dartsReceived false (g.addDart id) rest := by
          simp [dartsReceived, hb]
        rw [hd]
    | false =>
      have e1 : (g.addDart id).playerOne.currentScore = .num s1 := by
        rw [addDart_playerOne_frame_of_two hb, h1]
      have e2 : (g.addDart id).playerTwo.currentScore = .num (s2 - n) := by
        rw [addDart_playerTwo_score_of_two hb, h2, hn]; rfl
      obtain ⟨r1, r2⟩ := ih (g.addDart id) s1 (s2 - n) e1 e2 hrest
      constructor
      · rw [r1]
        have hd : dartsReceived true g (id :: rest)
            = dartsReceived true (g.addDart id) rest := by
          simp [dartsReceived, hb]
        rw [hd]
      · rw [r2]
        have hd : dartsReceived false g (id :: rest)
            = id :: dartsReceived false (g.addDart id) rest := by
          simp [dartsReceived, hb]
        rw [hd, sumVals_cons, hv]
        congr 1
        omega

end Darts

namespace Darts

theorem Game.addDart_eq (g : Game) (id : String) :
    g.addDart id =
      if (playerGameStep g.currentPlayer id).currentThrow.isThrowComplete
      then (g.setCurrentPlayer (playerGameStep g.currentPlayer id)).switchPlayers
      else g.setCurrentPlayer (playerGameStep g.currentPlayer id) := rfl

/-- C6: starting from any reachable `Game` state whose current player's
current `Throw` is complete (the structural consequences of reachability —
player ids 1 and 2 — are taken as hypotheses), three consecutive
`Game.addDart` calls toggle the `currentPlayer` reference exactly once:
it is unchanged after one and after two calls, and flipped after three. -/
theorem c6_turn_toggles_after_three_darts (g : Game) (a b c : String)
    (h1 : g.playerOne.id = 1) (h2 : g.playerTwo.id = 2)
    (hc : g.currentPlayer.currentThrow.isThrowComplete = true) :
    (g.addDart a).currentIsOne = g.currentIsOne ∧
    ((g.addDart a).addDart b).currentIsOne = g.currentIsOne ∧
    (((g.addDart a).addDart b).addDart c).currentIsOne = (!g.currentIsOne) := by
  set p := g.currentPlayer with hp
  have hne : p.throws ≠ [] := ne_nil_of_complete hc
  -- first dart: a fresh Throw is pushed and receives the dart in slot one
  set A1 := (newThrow p.throws.length).addDart a p.currentScore with hA1
  set q1 := playerGameStep p a with hq1def
  have hthr1 : q1.throws = p.throws ++ [A1] := by
    rw [hq1def, playerGameStep_eq p a hne, hA1, Player.addDart_of_complete p a hc]
  have hA1d : A1.darts = { one := some a, two := none, three := none, extra := none } :=
    addDart_newThrow_darts ..
  have hc1 : q1.currentThrow.isThrowComplete = false := by
    rw [currentThrow_of_concat hthr1]
    exact not_isThrowComplete_of_darts hA1d
  have e1 : g.addDart a = g.setCurrentPlayer q1 := by
    rw [Game.addDart_eq, ← hp, ← hq1def, hc1]
    simp
  set g1 := g.setCurrentPlayer q1 with hg1
  have hcp1 : g1.currentPlayer = q1 := setCurrentPlayer_currentPlayer ..
  -- second dart: slot two of the same Throw
  have hneq1 : q1.throws ≠ [] := by rw [hthr1]; simp
  set A2 := A1.addDart b q1.currentScore with hA2
  set q2 := playerGameStep q1 b with hq2def
  have hthr2 : q2.throws = p.throws ++ [A2] := by
    rw [hq2def, playerGameStep_eq q1 b hneq1, hA2,
      Player.addDart_of_incomplete q1 b hthr1 hc1]
  have hA2d : A2.darts = { one := some a, two := some b, three := none, extra := none } :=
    addDart_darts_two hA1d b q1.currentScore
  have hc2 : q2.currentThrow.isThrowComplete = false := by
    rw [currentThrow_of_concat hthr2]
    exact not_isThrowComplete_of_darts hA2d
  have e2 : g1.addDart b = g1.setCurrentPlayer q2 := by
    rw [Game.addDart_eq, hcp1, ← hq2def, hc2]
    simp
  set g2 := g1.setCurrentPlayer q2 with hg2
  have hcp2 : g2.currentPlayer = q2 := setCurrentPlayer_currentPlayer ..
  -- third dart: slot three, the Throw completes, players switch
  have hneq2 : q2.throws ≠ [] := by rw [hthr2]; simp
  set A3 := A2.addDart c q2.currentScore with hA3
  set q3 := playerGameStep q2 c with hq3def
  have hthr3 : q3.throws = p.throws ++ [A3] := by
    rw [hq3def, playerGameStep_eq q2 c hneq2, hA3,
      Player.addDart_of_incomplete q2 c hthr2 hc2]
  have hA3d : A3.darts =
      { one := some a, two := some b, three := some c, extra := none } :=
    addDart_darts_three hA2d c q2.currentScore
  have hc3 : q3.currentThrow.isThrowComplete = true := by
    rw [currentThrow_of_concat hthr3]
    exact isThrowComplete_of_darts hA3d
  have e3 : g2.addDart c = (g2.setCurrentPlayer q3).switchPlayers := by
    rw [Game.addDart_eq, hcp2, ← hq3def, hc3]
    simp
  have hid3 : q3.id = p.id := by
    rw [hq3def, playerGameStep_id_field, hq2def, playerGameStep_id_field,
      hq1def, playerGameStep_id_field]
  refine ⟨?_, ?_, ?_⟩
  · rw [e1, hg1, setCurrentPlayer_currentIsOne]
  · rw [e1, e2, hg2, setCurrentPlayer_currentIsOne, hg1, setCurrentPlayer_currentIsOne]
  · rw [e1, e2, e3, switchPlayers_currentIsOne,
      setCurrentPlayer_currentPlayer, hid3]
    cases hb : g.currentIsOne with
    | true =>
      have hpid : p.id = 1 := by rw [hp, Game.currentPlayer, hb, if_pos rfl, h1]
      rw [hpid]
      simp
    | false =>
      have hpid : p.id = 2 := by
        rw [hp, Game.currentPlayer, hb]
        simp [h2]
      rw [hpid]
      norm_num

end Darts

namespace Darts

/-! ### Helper lemmas for the idempotence of the duplicate score recompute -/

theorem addDart_currentThrow_score (p : Player) (id : String) (h : p.throws ≠ []) :
    (p.addDart id).currentThrow.currentScore
      = jsSub p.currentScore (getDartValueFromID (some id)) := by
  by_cases hc : p.currentThrow.isThrowComplete
  · have e : (p.addDart id).throws
        = p.throws ++ [(newThrow p.throws.length).addDart id p.currentScore] := by
      rw [Player.addDart_of_complete p id hc]
    rw [currentThrow_of_concat e, Throw.addDart_sets_currentScore]
  · obtain ⟨l, t, hlt⟩ := exists_concat_of_ne_nil h
    have e : (p.addDart id).throws = l ++ [t.addDart id p.currentScore] := by
      rw [Player.addDart_of_incomplete p id hlt (Bool.not_eq_true _ ▸ hc)]
    rw [currentThrow_of_concat e, Throw.addDart_sets_currentScore]

theorem playerGameStep_score_eq_throw (p : Player) (id : String) (h : p.throws ≠ []) :
    (playerGameStep p id).currentScore
      = (playerGameStep p id).currentThrow.currentScore := by
  rw [playerGameStep_eq p id h]
  have e : ({ p.addDart id with
      currentScore := jsSub p.currentScore (getDartValueFromID (some id)) } : Player).currentThrow
      = (p.addDart id).currentThrow := rfl
  rw [e, addDart_currentThrow_score p id h]

/-! ### The claims -/

/-- C1: `getDartValueFromID` realises the spec's mapping: `Bull` is 50,
`Outer` is 25, an absent or empty identifier is 0, and a `<ring><number>`
code (ring character followed by a non-empty digit string) is the decimal
value of the digits times the ring multiplier (`s` 1, `d` 2, `t` 3, any
other leading character 1); in particular `t20` is 60, `d20` is 40 and
`s1` is 1.  The function is pure (a Lean function of its argument). -/
theorem c1_getDartValueFromID_mapping (c : Char) (ds : List Char)
    (h1 : ds ≠ []) (h2 : ∀ d ∈ ds, isDigitChar d = true) :
    getDartValueFromID none = JSVal.num 0 ∧
    getDartValueFromID (some "") = JSVal.num 0 ∧
    getDartValueFromID (some "Bull") = JSVal.num 50 ∧
    getDartValueFromID (some "Outer") = JSVal.num 25 ∧
    getDartValueFromID (some "t20") = JSVal.num 60 ∧
    getDartValueFromID (some "d20") = JSVal.num 40 ∧
    getDartValueFromID (some "s1") = JSVal.num 1 ∧
    getDartValueFromID (some (String.mk (c :: ds)))
      = JSVal.num (ringMod c * decimalValue ds) := by
  refine ⟨by decide, by decide, by decide, by decide, by decide, by decide, by decide, ?_⟩
  have hB : ¬(c :: ds = "Bull".data) := by
    intro he
    have hdata : "Bull".data = ['B', 'u', 'l', 'l'] := rfl
    rw [hdata] at he
    injection he with he1 he2
    have := h2 'u' (by rw [he2]; simp)
    exact absurd this (by decide)
  have hO : ¬(c :: ds = "Outer".data) := by
    intro he
    have hdata : "Outer".data = ['O', 'u', 't', 'e', 'r'] := rfl
    rw [hdata] at he
    injection he with he1 he2
    have := h2 'u' (by rw [he2]; simp)
    exact absurd this (by decide)
  have e1 : getDartValueFromID (some (String.mk (c :: ds)))
      = getDartValueFromList (c :: ds) := rfl
  have e2 : getDartValueFromList (c :: ds) =
      if c :: ds = "Bull".data then JSVal.num 50
      else if c :: ds = "Outer".data then JSVal.num 25
      else jsMul
        (JSVal.num (if c = 's' then 1 else if c = 'd' then 2 else if c = 't' then 3 else 1))
        (parseIntList ds) := rfl
  rw [e1, e2, if_neg hB, if_neg hO, parseIntList_all_digits ds h1 h2]
  rfl

/-- Witness for C1 at the concrete input `t20`. -/
theorem c1_getDartValueFromID_mapping_witness :
    getDartValueFromID (some (String.mk ('t' :: ['2', '0'])))
      = JSVal.num (ringMod 't' * decimalValue ['2', '0']) :=
  (c1_getDartValueFromID_mapping 't' ['2', '0'] (by decide) (by decide)).2.2.2.2.2.2.2

/-- C2 counterexample: on `"sx"` (non-empty, not `Bull`/`Outer`, non-numeric
suffix) `getDartValueFromID` returns `NaN` (JS: `1 * parseInt("x")`), not 0
as the claim states. -/
theorem c2_nonNumericSuffix_counterexample :
    getDartValueFromID (some "sx") = JSVal.nan ∧
    getDartValueFromID (some "sx") ≠ JSVal.num 0 := by
  decide

/-- C2 (amended): for every non-empty identifier that is not `Bull` or
`Outer` and whose suffix after the first character fails the numeric parse
(`parseInt` gives `NaN`), `getDartValueFromID` returns `NaN` — the
multiplier times `NaN` — not 0. -/
theorem c2_nonNumericSuffix_nan (c : Char) (rest : List Char)
    (hB : c :: rest ≠ "Bull".data) (hO : c :: rest ≠ "Outer".data)
    (hp : parseIntList rest = JSVal.nan) :
    getDartValueFromList (c :: rest) = JSVal.nan := by
  have e2 : getDartValueFromList (c :: rest) =
      if c :: rest = "Bull".data then JSVal.num 50
      else if c :: rest = "Outer".data then JSVal.num 25
      else jsMul
        (JSVal.num (if c = 's' then 1 else if c = 'd' then 2 else if c = 't' then 3 else 1))
        (parseIntList rest) := rfl
  rw [e2, if_neg hB, if_neg hO, hp]
  rfl

/-- Witness for the amended C2 at the concrete input `sx`. -/
theorem c2_nonNumericSuffix_nan_witness :
    getDartValueFromList ('s' :: ['x']) = JSVal.nan :=
  c2_nonNumericSuffix_nan 's' ['x'] (by decide) (by decide) (by decide)

/-- C3 counterexample: in the fresh (reachable) state the seed placeholder
`Throw` has `total` equal to the sentinel string `"-"`, while the sum of
`getDartValueFromID` over its three `"-"` slots is `NaN` (each `"-"` slot
parses to `NaN`), so its total does not equal its slot sum. -/
theorem c3_seed_total_counterexample :
    Game.new.playerOne.currentThrow.total ≠ dartSum Game.new.playerOne.currentThrow ∧
    Game.new.playerOne.currentThrow.total = JSVal.str "-" ∧
    dartSum Game.new.playerOne.currentThrow = JSVal.nan := by
  decide

/-- C3 (amended): in every state reachable through the public operations,
every `Throw` other than the seed placeholder (i.e. every entry after the
first of each player's history — exactly the Throws that have received at
least one `addDart`) has `total` equal to the sum of `getDartValueFromID`
over its three dart slots, unfilled slots contributing 0.  The seed
placeholder keeps its sentinel `"-"` total. -/
theorem c3_total_recomputed_invariant {g : Game} (hr : Reach g) :
    (∀ t ∈ g.playerOne.throws.drop 1, t.total = dartSum t) ∧
    (∀ t ∈ g.playerTwo.throws.drop 1, t.total = dartSum t) := by
  induction hr with
  | init =>
    constructor <;> (intro t ht; simp [Game.new, Player.new] at ht)
  | @step g id hr ih =>
    have hone := Game.addDart_playerOne g id
    have htwo := Game.addDart_playerTwo g id
    cases hb : g.currentIsOne with
    | true =>
      simp only [hone, htwo, hb, if_true]
      exact ⟨step_preserves_total_inv g.playerOne id ih.1, ih.2⟩
    | false =>
      simp only [hone, htwo, hb, Bool.false_eq_true, if_false]
      exact ⟨ih.1, step_preserves_total_inv g.playerTwo id ih.2⟩

/-- Witness for the amended C3: one dart into a fresh game, checked on the
resulting current `Throw`. -/
theorem c3_total_recomputed_invariant_witness :
    gSample.playerOne.currentThrow.total = dartSum gSample.playerOne.currentThrow :=
  (c3_total_recomputed_invariant (Reach.step "t20" Reach.init)).1
    gSample.playerOne.currentThrow (by decide)

/-- C4 counterexample: in the fresh (reachable) game — before any `addDart`
call has ever been performed, so zero darts have been recorded via
`addDart` on any `Throw` — the current `Throw` (the seed placeholder, with
`"-"` in its slots) already reports `isThrowComplete() = true`, refuting
"true iff exactly three darts have been recorded on it via addDart". -/
theorem c4_seed_complete_counterexample :
    Game.new.playerOne.currentThrow.isThrowComplete = true ∧
    Game.new.playerOne.throws = [seedThrow] := by
  decide

/-- C4 (amended): Throws created by `Player.addDart` (`new Throw(n)`, empty
slots) are incomplete after zero, one and two `addDart` calls and complete
after the third, so completeness flips exactly on the third call; the seed
placeholder `Throw`, however, is complete from construction with zero
`addDart` calls. -/
theorem c4_complete_flips_on_third_dart (n : Nat) (a b c : String) (s1 s2 s3 : JSVal) :
    (newThrow n).isThrowComplete = false ∧
    ((newThrow n).addDart a s1).isThrowComplete = false ∧
    (((newThrow n).addDart a s1).addDart b s2).isThrowComplete = false ∧
    ((((newThrow n).addDart a s1).addDart b s2).addDart c s3).isThrowComplete = true ∧
    seedThrow.isThrowComplete = true :=
  ⟨rfl, rfl, rfl, rfl, rfl⟩

/-- C5: `Player.addDart` appends exactly one `Throw` when the current one is
complete — the appended Throw's id equals the count of existing throws —
and appends none otherwise; in both cases it forwards the identifier and
the player's current score to the current `Throw`'s `addDart`. -/
theorem c5_player_addDart_appends (p : Player) (id : String) (h : p.throws ≠ []) :
    (p.currentThrow.isThrowComplete = true →
      (p.addDart id).throws.length = p.throws.length + 1 ∧
      (p.addDart id).currentThrow = (newThrow p.throws.length).addDart id p.currentScore ∧
      (p.addDart id).currentThrow.id = JSVal.num p.throws.length) ∧
    (p.currentThrow.isThrowComplete = false →
      (p.addDart id).throws.length = p.throws.length ∧
      (p.addDart id).currentThrow = p.currentThrow.addDart id p.currentScore) := by
  constructor
  · intro hc
    have e := Player.addDart_of_complete p id hc
    have ethr : (p.addDart id).throws
        = p.throws ++ [(newThrow p.throws.length).addDart id p.currentScore] := by rw [e]
    refine ⟨by rw [ethr]; simp, currentThrow_of_concat ethr, ?_⟩
    rw [currentThrow_of_concat ethr, Throw.addDart_keeps_throw_id]
    rfl
  · intro hc
    obtain ⟨l, t, hlt⟩ := exists_concat_of_ne_nil h
    have e := Player.addDart_of_incomplete p id hlt hc
    have ethr : (p.addDart id).throws = l ++ [t.addDart id p.currentScore] := by rw [e]
    have hct : p.currentThrow = t := currentThrow_of_concat hlt
    constructor
    · rw [ethr, hlt]; simp
    · rw [currentThrow_of_concat ethr, hct]

/-- Witness for C5 on a fresh player (seed `Throw` complete): the length
grows from 1 to 2 and the appended Throw has id 1. -/
theorem c5_player_addDart_appends_witness :
    ((Player.new 1).addDart "t20").throws.length = (Player.new 1).throws.length + 1 ∧
    ((Player.new 1).addDart "t20").currentThrow.id = JSVal.num (Player.new 1).throws.length := by
  obtain ⟨hlen, -, hid⟩ :=
    (c5_player_addDart_appends (Player.new 1) "t20" (by decide)).1 (by decide)
  exact ⟨hlen, hid⟩

/-- C7: on a fresh game, three `t20` darts take player one's score through
501, 441, 381, 321, leave the Throw total at 180, and hand the turn to
player two. -/
theorem c7_maximum_turn_scenario :
    Game.new.playerOne.currentScore = JSVal.num 501 ∧
    (Game.new.addDart "t20").playerOne.currentScore = JSVal.num 441 ∧
    ((Game.new.addDart "t20").addDart "t20").playerOne.currentScore = JSVal.num 381 ∧
    (((Game.new.addDart "t20").addDart "t20").addDart "t20").playerOne.currentScore
      = JSVal.num 321 ∧
    (((Game.new.addDart "t20").addDart "t20").addDart "t20").playerOne.currentThrow.total
      = JSVal.num 180 ∧
    (((Game.new.addDart "t20").addDart "t20").addDart "t20").currentIsOne = false := by
  decide

/-- C8: the second `calculateCurrentScore` call performed by `Game.addDart`
recomputes exactly the value already stored on the `Throw` by the
`Player → Throw` path: after `Game.addDart` the receiving player's score
equals its current Throw's stored score, and the variant `Game.addDartNoDup`
that reads the Throw's stored score instead of recomputing is equal to
`Game.addDart` on the whole state. -/
theorem c8_duplicate_recompute_idempotent (g : Game) (id : String)
    (h : g.currentPlayer.throws ≠ []) :
    (g.currentIsOne = true →
      (g.addDart id).playerOne.currentScore
        = (g.addDart id).playerOne.currentThrow.currentScore) ∧
    (g.currentIsOne = false →
      (g.addDart id).playerTwo.currentScore
        = (g.addDart id).playerTwo.currentThrow.currentScore) ∧
    g.addDartNoDup id = g.addDart id := by
  refine ⟨?_, ?_, ?_⟩
  · intro hb
    have h1 : g.playerOne.throws ≠ [] := by
      rw [Game.currentPlayer, if_pos hb] at h
      exact h
    rw [Game.addDart_playerOne, if_pos hb]
    exact playerGameStep_score_eq_throw g.playerOne id h1
  · intro hb
    have h2 : g.playerTwo.throws ≠ [] := by
      rw [Game.currentPlayer, if_neg (by simp [hb])] at h
      exact h
    rw [Game.addDart_playerTwo, if_neg (by simp [hb])]
    exact playerGameStep_score_eq_throw g.playerTwo id h2
  · have key : ({ g.currentPlayer.addDart id with
        currentScore := (g.currentPlayer.addDart id).currentThrow.currentScore } : Player)
        = playerGameStep g.currentPlayer id := by
      rw [addDart_currentThrow_score g.currentPlayer id h,
        playerGameStep_eq g.currentPlayer id h]
    have eN : g.addDartNoDup id =
        if ({ g.currentPlayer.addDart id with
            currentScore := (g.currentPlayer.addDart id).currentThrow.currentScore } :
              Player).currentThrow.isThrowComplete
        then (g.setCurrentPlayer { g.currentPlayer.addDart id with
            currentScore := (g.currentPlayer.addDart id).currentThrow.currentScore }).switchPlayers
        else g.setCurrentPlayer { g.currentPlayer.addDart id with
            currentScore := (g.currentPlayer.addDart id).currentThrow.currentScore } := rfl
    rw [Game.addDart_eq, eN, key]

/-- Witness for C8 on a fresh game with a `t20` dart. -/
theorem c8_duplicate_recompute_idempotent_witness :
    Game.new.addDartNoDup "t20" = Game.new.addDart "t20" :=
  (c8_duplicate_recompute_idempotent Game.new "t20" (by decide)).2.2

/-- C9: calling `Throw.addDart` on a `Throw` whose three slots are filled
leaves the slots untouched; the identifier lands in the property created
under the computed key `""` (`extra`), the recomputed total equals the
unchanged slot sum (hence equals the previous total whenever that total
was the slot sum), and `currentScore` is still set to the passed score
minus the dart's value — the value `calculateCurrentScore` also returns. -/
theorem c9_addDart_on_full_throw (t : Throw) (id : String) (s : JSVal)
    (h1 : t.darts.one ≠ none) (h2 : t.darts.two ≠ none) (h3 : t.darts.three ≠ none) :
    (t.addDart id s).darts.one = t.darts.one ∧
    (t.addDart id s).darts.two = t.darts.two ∧
    (t.addDart id s).darts.three = t.darts.three ∧
    (t.addDart id s).darts.extra = some id ∧
    (t.addDart id s).total = dartSum t ∧
    (t.total = dartSum t → (t.addDart id s).total = t.total) ∧
    (t.addDart id s).currentScore = jsSub s (getDartValueFromID (some id)) ∧
    (∀ u : Throw, (u.calculateCurrentScore s id).2
      = (u.calculateCurrentScore s id).1.currentScore) := by
  rcases t with ⟨tid, ⟨o1, o2, o3, e⟩, tt, cs⟩
  cases o1 with
  | none => exact absurd rfl h1
  | some v1 =>
    cases o2 with
    | none => exact absurd rfl h2
    | some v2 =>
      cases o3 with
      | none => exact absurd rfl h3
      | some v3 =>
        refine ⟨rfl, rfl, rfl, rfl, rfl, ?_, rfl, fun u => rfl⟩
        intro he
        rw [he]
        rfl

/-- Witness for C9 on a filled `Throw` worth 6 (slots `s1`, `s2`, `s3`). -/
theorem c9_addDart_on_full_throw_witness :
    (tFull.addDart "t20" (JSVal.num 100)).darts.extra = some "t20" ∧
    (tFull.addDart "t20" (JSVal.num 100)).total = tFull.total ∧
    (tFull.addDart "t20" (JSVal.num 100)).currentScore = JSVal.num 40 := by
  obtain ⟨-, -, -, hextra, -, himp, hscore, -⟩ :=
    c9_addDart_on_full_throw tFull "t20" (JSVal.num 100) (by decide) (by decide) (by decide)
  refine ⟨hextra, himp (by decide), ?_⟩
  rw [hscore]
  decide

/-- C10: starting from a fresh game and feeding any list of identifiers
whose numeric parse succeeds, each player's score is 501 minus the sum of
the values of the darts routed to that player; moreover each `Game.addDart`
call leaves the non-current player's entire state unchanged. -/
theorem c10_score_equals_501_minus_sum (ids : List String)
    (h : ∀ id ∈ ids, ∃ n : Int, getDartValueFromID (some id) = JSVal.num n) :
    ((runGame Game.new ids).playerOne.currentScore
        = JSVal.num (501 - sumVals (dartsReceived true Game.new ids)) ∧
      (runGame Game.new ids).playerTwo.currentScore
        = JSVal.num (501 - sumVals (dartsReceived false Game.new ids))) ∧
    ∀ (g : Game) (id : String),
      (g.currentIsOne = true → (g.addDart id).playerTwo = g.playerTwo) ∧
      (g.currentIsOne = false → (g.addDart id).playerOne = g.playerOne) := by
  refine ⟨run_scores ids Game.new 501 501 rfl rfl h, ?_⟩
  intro g id
  exact ⟨fun hb => addDart_playerTwo_frame_of_one hb id,
    fun hb => addDart_playerOne_frame_of_two hb id⟩

/-- Witness for C10 on the single-dart run `t20`. -/
theorem c10_score_equals_501_minus_sum_witness :
    (runGame Game.new ["t20"]).playerOne.currentScore
      = JSVal.num (501 - sumVals (dartsReceived true Game.new ["t20"])) := by
  have h : ∀ id ∈ (["t20"] : List String),
      ∃ n : Int, getDartValueFromID (some id) = JSVal.num n := by
    intro id hid
    rw [List.mem_singleton] at hid
    subst hid
    exact ⟨60, by decide⟩
  exact (c10_score_equals_501_minus_sum ["t20"] h).1.1

/-- Witness for C6 on a fresh game (seed `Throw` complete) with three `t20`
darts: the turn flips from player one to player two. -/
theorem c6_turn_toggles_after_three_darts_witness :
    (((Game.new.addDart "t20").addDart "t20").addDart "t20").currentIsOne
      = (!Game.new.currentIsOne) :=
  (c6_turn_toggles_after_three_darts Game.new "t20" "t20" "t20" rfl rfl (by decide)).2.2

end Darts
